import Mathlib

/-!
# flow-wallet-api: a shallow embedding of the key manager, the HTTP handlers and the
# token template service

Go values are embedded as follows.

* A Go `string` (and a `[]byte`) is a finite sequence of bytes, `GoString`.  The conversions
  `[]byte(s)` and `string(b)` are the identity on that sequence.
* A Go `error` is a `GoError`; a function returning `(T, error)` returns `Except GoError T`,
  a function returning only `error` returns `Option GoError` (`none` is `nil`).
* A function that may panic returns an `Outcome`.
* A pointer result that may be `nil` is an `Option`.
* Collaborators that live outside the embedded files (the crypter, the stores, the chain
  client, the services behind the handlers, library functions) are parameters.
* Calls on collaborators whose order or absence matters are recorded in a trace.
-/

namespace FlowWallet

/-! ## Strings and errors -/

/-- One byte. -/
abbrev Byte := Fin 256

/-- Go `string` / `[]byte`: a sequence of bytes. -/
abbrev GoString := List Byte

/-- The bytes of an ASCII string literal of the source. -/
def lit (s : String) : GoString := s.toList.map (fun c => Fin.ofNat c.toNat)

/-- Go `error` values.  `text m` is an error whose `Error()` is `m` (what `fmt.Errorf` and
`errors.New` build, and what collaborators return); `request c e` is
`&errors.RequestError{StatusCode: c, Err: e}`. -/
inductive GoError where
  | text (msg : GoString)
  | request (StatusCode : Int) (Err : GoError)
  deriving DecidableEq, Repr

/-- The call `fmt.Errorf(msg)` with the message already formatted. -/
def Errorf (msg : GoString) : GoError := GoError.text msg

/-- The method `err.Error()`.  For a `RequestError` the method is declared outside the embedded
files; it is taken to delegate to the wrapped error. -/
def GoError.Error : GoError → GoString
  | GoError.text m => m
  | GoError.request _ e => e.Error

/-- The function `strings.Contains(s, substr)`. -/
def stringsContains : GoString → GoString → Bool
  | [], sub => sub.isEmpty
  | c :: cs, sub => sub.isPrefixOf (c :: cs) || stringsContains cs sub

/-- The function `strings.Split(s, sep)` for a one-byte separator, the only way the source calls
it: the segments of `s` between occurrences of `sep`, always at least one segment. -/
def stringsSplit (s : GoString) (sep : Byte) : List GoString :=
  match s with
  | [] => [[]]
  | c :: cs =>
    if c = sep then [] :: stringsSplit cs sep
    else
      match stringsSplit cs sep with
      | [] => [[c]]
      | seg :: segs => (c :: seg) :: segs

/-- The number of occurrences of the byte `.` in a string, `strings.Count(s, ".")`. -/
def dotCount (s : GoString) : Nat := s.count (46 : Byte)

/-- What a Go function that may panic does: return a value, return an error, or panic, with a
value passed to `panic`, on an index out of range, or on the dereference of a `nil` pointer. -/
inductive Outcome (α : Type) where
  | ret (a : α)
  | fail (e : GoError)
  | panicErr (e : GoError)
  | panicIndex (index : Int) (length : Nat)
  | panicNil
  deriving Repr

/-! ## Package `keys/simple` -/

section Keys

variable {SA HA Addr AK SG : Type}

/-- The struct `keys.Private`. -/
structure Private (SA HA : Type) where
  Index : Int
  Type_ : GoString
  Value : GoString
  SignAlgo : SA
  HashAlgo : HA

/-- The struct `keys.Storable`, with the fields `Save` writes and `Load` reads. -/
structure Storable where
  Index : Int
  Type_ : GoString
  Value : GoString
  SignAlgo : GoString
  HashAlgo : GoString

/-- The interface `encryption.Crypter`. -/
structure Crypter where
  Encrypt : GoString → Except GoError GoString
  Decrypt : GoString → Except GoError GoString

/-- The parts of the SDK package `crypto` used by the key manager: the `String` methods of the
two algorithm types and their parsers. -/
structure CryptoPkg (SA HA : Type) where
  SigString : SA → GoString
  StringToSignatureAlgorithm : GoString → SA
  HashString : HA → GoString
  StringToHashAlgorithm : GoString → HA

/-- The method `KeyManager.Save` (it reads only the crypter of its receiver). -/
def Save (crypto : CryptoPkg SA HA) (crypter : Crypter) (key : Private SA HA) :
    Except GoError Storable :=
  match crypter.Encrypt key.Value with
  | Except.error err => Except.error err
  | Except.ok encValue =>
    Except.ok
      { Index := key.Index
        Type_ := key.Type_
        Value := encValue
        SignAlgo := crypto.SigString key.SignAlgo
        HashAlgo := crypto.HashString key.HashAlgo }

/-- The method `KeyManager.Load` (it reads only the crypter of its receiver). -/
def Load (crypto : CryptoPkg SA HA) (crypter : Crypter) (key : Storable) :
    Except GoError (Private SA HA) :=
  match crypter.Decrypt key.Value with
  | Except.error err => Except.error err
  | Except.ok decValue =>
    Except.ok
      { Index := key.Index
        Type_ := key.Type_
        Value := decValue
        SignAlgo := crypto.StringToSignatureAlgorithm key.SignAlgo
        HashAlgo := crypto.StringToHashAlgorithm key.HashAlgo }

/-- The constant `keys.ACCOUNT_KEY_TYPE_LOCAL`. -/
def ACCOUNT_KEY_TYPE_LOCAL : GoString := lit "local"

/-- The constant `keys.ACCOUNT_KEY_TYPE_GOOGLE_KMS`. -/
def ACCOUNT_KEY_TYPE_GOOGLE_KMS : GoString := lit "google_kms"

/-- The struct `flow.Account`, with the field the key manager reads. -/
structure Account (AK : Type) where
  Keys : List AK

/-- The struct `keys.Authorizer`. -/
structure Authorizer (Addr AK SG : Type) where
  Address : Addr
  Key : AK
  Signer : SG

/-- The configuration of the key manager, with the field `MakeAuthorizer` reads. -/
structure KeysConfig where
  AdminAccountAddress : GoString

/-- The struct `KeyManager`: `db` is `s.db.AccountKey`, `fc` is `s.fc.GetAccount(ctx, ·)`. -/
structure KeyManager (SA HA Addr AK : Type) where
  db : GoString → Except GoError Storable
  fc : Addr → Except GoError (Account AK)
  crypter : Crypter
  adminAccountKey : Private SA HA
  cfg : KeysConfig

/-- Package-level functions the key manager calls: the SDK package `crypto`,
`flow.HexToAddress`, `local.Signer(k)` and `google.Signer(ctx, address, k)`. -/
structure KeysPkg (SA HA Addr SG : Type) where
  crypto : CryptoPkg SA HA
  HexToAddress : GoString → Addr
  localSigner : Private SA HA → Except GoError SG
  googleSigner : GoString → Private SA HA → Except GoError SG

/-- Calls of `MakeAuthorizer` on its collaborators, in order. -/
inductive KeyEvent (SA HA Addr : Type) where
  | dbAccountKey (address : GoString)
  | decrypt (ciphertext : GoString)
  | getAccount (address : Addr)
  | localSigner (k : Private SA HA)
  | googleSigner (address : GoString) (k : Private SA HA)

/-- Whether a call reads the key store or decrypts. -/
def KeyEvent.touchesKeyStore {SA HA Addr : Type} : KeyEvent SA HA Addr → Bool
  | KeyEvent.dbAccountKey _ => true
  | KeyEvent.decrypt _ => true
  | _ => false

/-- The first part of `MakeAuthorizer`: the selection of the signing key `k`, with the calls it
makes.  `Load` calls `Decrypt` once, on the stored value. -/
def selectKey (pkg : KeysPkg SA HA Addr SG) (s : KeyManager SA HA Addr AK) (address : GoString) :
    Except GoError (Private SA HA) × List (KeyEvent SA HA Addr) :=
  if address = s.cfg.AdminAccountAddress then
    (Except.ok s.adminAccountKey, [])
  else
    match s.db address with
    | Except.error err => (Except.error err, [KeyEvent.dbAccountKey address])
    | Except.ok sk =>
      match Load pkg.crypto s.crypter sk with
      | Except.error err =>
        (Except.error err, [KeyEvent.dbAccountKey address, KeyEvent.decrypt sk.Value])
      | Except.ok k =>
        (Except.ok k, [KeyEvent.dbAccountKey address, KeyEvent.decrypt sk.Value])

/-- The index expression `acc.Keys[i]` for a Go `int` index: out of range panics. -/
def indexKeys (keys : List AK) (i : Int) : Option AK :=
  if i < 0 then none else keys[i.toNat]?

/-- The method `KeyManager.MakeAuthorizer`: its outcome and the calls it made. -/
def MakeAuthorizer (pkg : KeysPkg SA HA Addr SG) (s : KeyManager SA HA Addr AK)
    (address : GoString) : Outcome (Authorizer Addr AK SG) × List (KeyEvent SA HA Addr) :=
  match selectKey pkg s address with
  | (Except.error err, tr) => (Outcome.fail err, tr)
  | (Except.ok k, tr) =>
    let tr1 := tr ++ [KeyEvent.getAccount (pkg.HexToAddress address)]
    match s.fc (pkg.HexToAddress address) with
    | Except.error err => (Outcome.fail err, tr1)
    | Except.ok acc =>
      let finish (sig : SG) (tr2 : List (KeyEvent SA HA Addr)) :
          Outcome (Authorizer Addr AK SG) × List (KeyEvent SA HA Addr) :=
        match indexKeys acc.Keys k.Index with
        | none => (Outcome.panicIndex k.Index acc.Keys.length, tr2)
        | some key =>
          (Outcome.ret { Address := pkg.HexToAddress address, Key := key, Signer := sig }, tr2)
      if k.Type_ = ACCOUNT_KEY_TYPE_LOCAL then
        match pkg.localSigner k with
        | Except.error err => (Outcome.fail err, tr1 ++ [KeyEvent.localSigner k])
        | Except.ok sig => finish sig (tr1 ++ [KeyEvent.localSigner k])
      else if k.Type_ = ACCOUNT_KEY_TYPE_GOOGLE_KMS then
        match pkg.googleSigner address k with
        | Except.error err => (Outcome.fail err, tr1 ++ [KeyEvent.googleSigner address k])
        | Except.ok sig => finish sig (tr1 ++ [KeyEvent.googleSigner address k])
      else
        (Outcome.fail (Errorf (lit "key.Type not recognised: " ++ k.Type_)), tr1)

/-- The method `KeyManager.AdminAuthorizer`. -/
def AdminAuthorizer (pkg : KeysPkg SA HA Addr SG) (s : KeyManager SA HA Addr AK) :
    Outcome (Authorizer Addr AK SG) × List (KeyEvent SA HA Addr) :=
  MakeAuthorizer pkg s s.cfg.AdminAccountAddress

/-- The method `KeyManager.UserAuthorizer`. -/
def UserAuthorizer (pkg : KeysPkg SA HA Addr SG) (s : KeyManager SA HA Addr AK)
    (address : GoString) : Outcome (Authorizer Addr AK SG) × List (KeyEvent SA HA Addr) :=
  MakeAuthorizer pkg s address

end Keys

/-! ## Package `handlers` -/

/-- The constant `http.StatusCreated`. -/
def StatusCreated : Int := 201

/-- The constant `http.StatusBadRequest`. -/
def StatusBadRequest : Int := 400

/-- The field `Body` of an `*http.Request`: `nil`, `http.NoBody`, or a reader over bytes. -/
inductive ReqBody where
  | nil
  | noBody
  | reader (content : GoString)
  deriving DecidableEq, Repr

/-- An `*http.Request` as the handlers read it: the route variables `mux.Vars(r)` (a missing
key reads as the empty string), the method `r.Header.Get`, and the body. -/
structure Request where
  Vars : GoString → GoString
  HeaderGet : GoString → GoString
  Body : ReqBody

/-- The account service behind `Accounts`: the result of `CreateSync(ctx)` and of
`CreateAsync()` when called for this request. -/
structure AccountsService (A J : Type) where
  CreateSync : Except GoError A
  CreateAsync : Except GoError J

/-- The value `res interface{}` of `Accounts.CreateFunc`. -/
inductive AccountsBody (A J : Type) where
  | sync (a : A)
  | async (j : J)
  deriving DecidableEq, Repr

/-- What `Accounts.CreateFunc` does, in order: calls on the service and on the two response
helpers `handleError` and `handleJsonResponse` of the package. -/
inductive AccountsEvent (A J : Type) where
  | callCreateSync
  | callCreateAsync
  | handleError (err : GoError)
  | handleJsonResponse (status : Int) (res : AccountsBody A J)
  deriving DecidableEq, Repr

/-- The handler `Accounts.CreateFunc`; `SYNC_HEADER` is the package constant of that name. -/
def Accounts.CreateFunc {A J : Type} (SYNC_HEADER : GoString) (service : AccountsService A J)
    (r : Request) : List (AccountsEvent A J) :=
  if r.HeaderGet SYNC_HEADER ≠ [] then
    match service.CreateSync with
    | Except.error err => [AccountsEvent.callCreateSync, AccountsEvent.handleError err]
    | Except.ok res =>
      [AccountsEvent.callCreateSync,
        AccountsEvent.handleJsonResponse StatusCreated (AccountsBody.sync res)]
  else
    match service.CreateAsync with
    | Except.error err => [AccountsEvent.callCreateAsync, AccountsEvent.handleError err]
    | Except.ok res =>
      [AccountsEvent.callCreateAsync,
        AccountsEvent.handleJsonResponse StatusCreated (AccountsBody.async res)]

/-- The service calls of a trace of `Accounts.CreateFunc`, in order. -/
def Accounts.calls {A J : Type} (tr : List (AccountsEvent A J)) : List (AccountsEvent A J) :=
  tr.filter (fun e => match e with
    | AccountsEvent.callCreateSync => true
    | AccountsEvent.callCreateAsync => true
    | _ => false)

/-- The JSON responses of a trace of `Accounts.CreateFunc`: status and body, in order. -/
def Accounts.responses {A J : Type} (tr : List (AccountsEvent A J)) :
    List (Int × AccountsBody A J) :=
  tr.filterMap (fun e => match e with
    | AccountsEvent.handleJsonResponse status res => some (status, res)
    | _ => none)

/-- The errors handed to `handleError` in a trace of `Accounts.CreateFunc`. -/
def Accounts.errors {A J : Type} (tr : List (AccountsEvent A J)) : List GoError :=
  tr.filterMap (fun e => match e with
    | AccountsEvent.handleError err => some err
    | _ => none)

/-- The struct `tokens.WithdrawalRequest`: the field `TokenName` the handler assigns, and the
remaining fields, of type `R`. -/
structure WithdrawalRequest (R : Type) where
  TokenName : GoString
  rest : R
  deriving DecidableEq, Repr

/-- The three results `(job, tx, err)` of `Setup` and `CreateWithdrawal`. -/
structure TokensResult (J T : Type) where
  job : J
  tx : T
  err : Option GoError

/-- The token service behind `Tokens`: `Setup(ctx, sync, tokenName, address)` and
`CreateWithdrawal(ctx, sync, address, withdrawal)`. -/
structure TokensService (J T R : Type) where
  Setup : Bool → GoString → GoString → TokensResult J T
  CreateWithdrawal : Bool → GoString → WithdrawalRequest R → TokensResult J T

/-- The value `res interface{}` of the token handlers: the transaction or the job. -/
inductive TokensBody (J T : Type) where
  | tx (t : T)
  | job (j : J)
  deriving DecidableEq, Repr

/-- What a token handler does, in order. -/
inductive TokensEvent (J T R : Type) where
  | callSetup (sync : Bool) (tokenName address : GoString)
  | callCreateWithdrawal (sync : Bool) (address : GoString) (withdrawal : WithdrawalRequest R)
  | handleError (err : GoError)
  | handleJsonResponse (status : Int) (res : TokensBody J T)
  deriving DecidableEq, Repr

/-- The handler `Tokens.SetupFunc`; `SyncHeader` is the package constant of that name. -/
def Tokens.SetupFunc {J T R : Type} (SyncHeader : GoString) (service : TokensService J T R)
    (r : Request) : List (TokensEvent J T R) :=
  let address := r.Vars (lit "address")
  let tokenName := r.Vars (lit "tokenName")
  let sync : Bool := decide (r.HeaderGet SyncHeader ≠ [])
  let out := service.Setup sync tokenName address
  let res := if sync then TokensBody.tx out.tx else TokensBody.job out.job
  match out.err with
  | some err => [TokensEvent.callSetup sync tokenName address, TokensEvent.handleError err]
  | none =>
    [TokensEvent.callSetup sync tokenName address,
      TokensEvent.handleJsonResponse StatusCreated res]

/-- The handler `Tokens.CreateWithdrawalFunc`; `decode` is
`json.NewDecoder(r.Body).Decode(&withdrawal)` on a zero `withdrawal`, as a function of the bytes
of the body. -/
def Tokens.CreateWithdrawalFunc {J T R : Type} (SyncHeader : GoString)
    (decode : GoString → Except GoError (WithdrawalRequest R))
    (service : TokensService J T R) (r : Request) : List (TokensEvent J T R) :=
  let address := r.Vars (lit "address")
  let tokenName := r.Vars (lit "tokenName")
  match r.Body with
  | ReqBody.nil =>
    [TokensEvent.handleError (GoError.request StatusBadRequest (Errorf (lit "empty body")))]
  | ReqBody.noBody =>
    [TokensEvent.handleError (GoError.request StatusBadRequest (Errorf (lit "empty body")))]
  | ReqBody.reader content =>
    match decode content with
    | Except.error _ =>
      [TokensEvent.handleError (GoError.request StatusBadRequest (Errorf (lit "invalid body")))]
    | Except.ok decoded =>
      let withdrawal := { decoded with TokenName := tokenName }
      let sync : Bool := decide (r.HeaderGet SyncHeader ≠ [])
      let out := service.CreateWithdrawal sync address withdrawal
      let res := if sync then TokensBody.tx out.tx else TokensBody.job out.job
      match out.err with
      | some err =>
        [TokensEvent.callCreateWithdrawal sync address withdrawal, TokensEvent.handleError err]
      | none =>
        [TokensEvent.callCreateWithdrawal sync address withdrawal,
          TokensEvent.handleJsonResponse StatusCreated res]

/-- The service calls of a trace of a token handler, in order. -/
def Tokens.calls {J T R : Type} (tr : List (TokensEvent J T R)) : List (TokensEvent J T R) :=
  tr.filter (fun e => match e with
    | TokensEvent.callSetup _ _ _ => true
    | TokensEvent.callCreateWithdrawal _ _ _ => true
    | _ => false)

/-- The JSON responses of a trace of a token handler: status and body, in order. -/
def Tokens.responses {J T R : Type} (tr : List (TokensEvent J T R)) :
    List (Int × TokensBody J T) :=
  tr.filterMap (fun e => match e with
    | TokensEvent.handleJsonResponse status res => some (status, res)
    | _ => none)

/-- The errors handed to `handleError` in a trace of a token handler. -/
def Tokens.errors {J T R : Type} (tr : List (TokensEvent J T R)) : List GoError :=
  tr.filterMap (fun e => match e with
    | TokensEvent.handleError err => some err
    | _ => none)

/-! ## Package `templates` -/

/-- Modelled from the spec: the declaration of `TokenType` is outside the embedded files; the
source names its constant `FT`, the interface speaks of fungible (`ft`) and non-fungible
(`nft`) tokens. -/
inductive TokenType where
  | NotSpecified
  | FT
  | NFT
  deriving DecidableEq, Repr

/-- The struct `templates.Token`, with the fields the service reads and writes. -/
structure Token where
  Name : GoString
  Address : GoString
  Setup : GoString
  Transfer : GoString
  Balance : GoString
  Type_ : TokenType
  deriving DecidableEq, Repr

/-- The interface `templates.Store` over a store state `S`, with the two methods the embedded
functions call.  Each call returns its Go result and the state it leaves.  `GetByName` returns
`(*Token, error)`: its error when that is not `nil`, and otherwise its pointer, `none` when the
pointer is `nil`; the embedded functions never read the pointer that comes with an error. -/
structure Store (S : Type) where
  GetByName : S → GoString → Except GoError (Option Token) × S
  Insert : S → Token → Option GoError × S

/-- The struct `config` of the package: what `parseConfig()` returned. -/
structure TemplatesConfig where
  enabledTokens : List Token
  ChainId : GoString

/-- Functions of the package and of `flow_helpers` that the service calls and that are
declared outside the embedded files. -/
structure TemplatesPkg where
  FungibleSetupCode : Token → GoString
  FungibleTransferCode : Token → GoString
  FungibleBalanceCode : Token → GoString
  TokenCode : Token → GoString → GoString
  ValidateAddress : GoString → GoString → Except GoError GoString

/-- The struct `Service`; its store is passed as an explicit state. -/
structure Service where
  cfg : TemplatesConfig

/-- The four assignments of the loop body of `NewService` before the insert. -/
def fungibleToken (pkg : TemplatesPkg) (t : Token) : Token :=
  let t1 := { t with Type_ := TokenType.FT }
  let t2 := { t1 with Setup := pkg.FungibleSetupCode t1 }
  let t3 := { t2 with Transfer := pkg.FungibleTransferCode t2 }
  { t3 with Balance := pkg.FungibleBalanceCode t3 }

/-- The state of the bootstrap loop: the value passed to `panic`, if any, the store, and the
tokens handed to `Insert` so far, in order. -/
structure Boot (S : Type) where
  panicked : Option GoError
  store : S
  inserts : List Token

/-- The loop of `NewService` over the enabled tokens still to visit. -/
def bootstrap {S : Type} (pkg : TemplatesPkg) (store : Store S) :
    List Token → S → List Token → Boot S
  | [], s, log => { panicked := none, store := s, inserts := log }
  | t :: ts, s, log =>
    match store.GetByName s t.Name with
    | (Except.ok _, s1) => bootstrap pkg store ts s1 log
    | (Except.error err, s1) =>
      if !stringsContains err.Error (lit "record not found") then
        { panicked := some err, store := s1, inserts := log }
      else
        match store.Insert s1 (fungibleToken pkg t) with
        | (some err, s2) =>
          { panicked := some err, store := s2, inserts := log ++ [fungibleToken pkg t] }
        | (none, s2) => bootstrap pkg store ts s2 (log ++ [fungibleToken pkg t])

/-- The function `NewService`: the service or the panic, the store it leaves, and the tokens it
handed to `Insert`. -/
def NewService {S : Type} (pkg : TemplatesPkg) (cfg : TemplatesConfig) (store : Store S)
    (s : S) : Outcome Service × S × List Token :=
  let b := bootstrap pkg store cfg.enabledTokens s []
  match b.panicked with
  | some err => (Outcome.panicErr err, b.store, b.inserts)
  | none => (Outcome.ret { cfg := cfg }, b.store, b.inserts)

/-- What `AddToken` leaves: the returned error, the token behind the pointer it was given,
the store, and the tokens handed to `Insert`. -/
structure AddTokenResult (S : Type) where
  err : Option GoError
  token : Token
  store : S
  inserts : List Token

/-- The method `Service.AddToken`. -/
def Service.AddToken {S : Type} (pkg : TemplatesPkg) (store : Store S) (svc : Service) (s : S)
    (t : Token) : AddTokenResult S :=
  match pkg.ValidateAddress t.Address svc.cfg.ChainId with
  | Except.error err => { err := some err, token := t, store := s, inserts := [] }
  | Except.ok address =>
    let t1 := { t with Address := address }
    if t1.Name = [] then
      { err := some (Errorf (lit "not a valid name: \x22" ++ t1.Name ++ lit "\x22")),
        token := t1, store := s, inserts := [] }
    else
      let t2 := { t1 with Setup := pkg.TokenCode t1 t1.Setup }
      let t3 := { t2 with Transfer := pkg.TokenCode t2 t2.Transfer }
      let t4 := { t3 with Balance := pkg.TokenCode t3 t3.Balance }
      match store.Insert s t4 with
      | (res, s1) => { err := res, token := t4, store := s1, inserts := [t4] }

/-- The method `Service.GetTokenByName`. -/
def Service.GetTokenByName {S : Type} (store : Store S) (s : S) (name : GoString) :
    Except GoError (Option Token) × S :=
  store.GetByName s name

/-- The method `Service.TokenFromEvent`, on the field `Type` of the event.  The index
expressions `ss[1]` and `ss[2]` panic when out of range; `ss[2]` is evaluated after the first
validation has returned.  When the lookup returns a `nil` token with a `nil` error, the read of
`token.Address` dereferences `nil` and panics. -/
def Service.TokenFromEvent {S : Type} (pkg : TemplatesPkg) (store : Store S) (svc : Service)
    (s : S) (eType : GoString) : Outcome Token × S :=
  let ss := stringsSplit eType 46
  match ss[1]? with
  | none => (Outcome.panicIndex 1 ss.length, s)
  | some ss1 =>
    match pkg.ValidateAddress ss1 svc.cfg.ChainId with
    | Except.error err => (Outcome.fail err, s)
    | Except.ok eAddress =>
      match ss[2]? with
      | none => (Outcome.panicIndex 2 ss.length, s)
      | some ss2 =>
        match Service.GetTokenByName store s ss2 with
        | (Except.error err, s1) => (Outcome.fail err, s1)
        | (Except.ok none, s1) => (Outcome.panicNil, s1)
        | (Except.ok (some token), s1) =>
          match pkg.ValidateAddress token.Address svc.cfg.ChainId with
          | Except.error err => (Outcome.fail err, s1)
          | Except.ok tAddress =>
            if eAddress ≠ tAddress then
              (Outcome.fail (Errorf (lit "addresses do not match for " ++ token.Name ++
                lit ", from event: " ++ eAddress ++ lit ", from database: " ++ tAddress)), s1)
            else (Outcome.ret token, s1)

/-- Modelled from the spec: a token store that is a map by name.  `GetByName` succeeds for a
name after `Insert` of a token with that name and otherwise fails with `record not found`;
`Insert` binds the name of the token to the token and succeeds. -/
abbrev MapStore := GoString → Option Token

/-- The store interface over `MapStore`. -/
def mapStore : Store MapStore where
  GetByName := fun s name =>
    match s name with
    | some t => (Except.ok (some t), s)
    | none => (Except.error (Errorf (lit "record not found")), s)
  Insert := fun s t => (none, fun name => if name = t.Name then some t else s name)

/-! ## Examples used by the witnesses of the key manager -/

/-- A small signature algorithm type. -/
inductive ExSig where
  | unknown
  | p256
  deriving DecidableEq, Repr

/-- A small hash algorithm type. -/
inductive ExHash where
  | unknown
  | sha3
  deriving DecidableEq, Repr

/-- Names and parsers for the example algorithms. -/
def exCrypto : CryptoPkg ExSig ExHash where
  SigString := fun a => match a with
    | ExSig.unknown => lit "UNKNOWN"
    | ExSig.p256 => lit "ECDSA_P256"
  StringToSignatureAlgorithm := fun s => if s = lit "ECDSA_P256" then ExSig.p256 else ExSig.unknown
  HashString := fun a => match a with
    | ExHash.unknown => lit "UNKNOWN"
    | ExHash.sha3 => lit "SHA3_256"
  StringToHashAlgorithm := fun s => if s = lit "SHA3_256" then ExHash.sha3 else ExHash.unknown

/-- A crypter that reverses the plaintext behind a one-byte header and rejects a ciphertext
without the header. -/
def exCrypter : Crypter where
  Encrypt := fun b => Except.ok (7 :: b.reverse)
  Decrypt := fun c => match c with
    | [] => Except.error (Errorf (lit "ciphertext too short"))
    | _ :: t => Except.ok t.reverse

/-- An example private key. -/
def exPrivate : Private ExSig ExHash :=
  { Index := 0, Type_ := lit "local", Value := lit "abc", SignAlgo := ExSig.p256,
    HashAlgo := ExHash.sha3 }

/-- Example package functions of the key manager: addresses are their hex strings, the local
signer is signer 1 and the KMS signer is signer 2. -/
def exKeysPkg : KeysPkg ExSig ExHash GoString Nat where
  crypto := exCrypto
  HexToAddress := fun a => a
  localSigner := fun _ => Except.ok 1
  googleSigner := fun _ _ => Except.ok 2

/-- An example key manager with admin account `0x1`, whose admin key has the given type and
whose chain client answers only when `chainUp`; the key store holds one key, for `0x2`. -/
def exKeyManager (adminType : GoString) (chainUp : Bool) :
    KeyManager ExSig ExHash GoString Nat where
  db := fun a =>
    if a = lit "0x2" then
      Except.ok { Index := 1, Type_ := lit "local", Value := 7 :: (lit "abc").reverse,
                  SignAlgo := lit "ECDSA_P256", HashAlgo := lit "SHA3_256" }
    else Except.error (Errorf (lit "record not found"))
  fc := fun _ =>
    if chainUp then Except.ok { Keys := [10, 11] }
    else Except.error (Errorf (lit "connection refused"))
  crypter := exCrypter
  adminAccountKey := { exPrivate with Type_ := adminType }
  cfg := { AdminAccountAddress := lit "0x1" }

/-! ## Examples used by the witnesses of the handlers -/

/-- A toy body decoder: a body starting with an opening brace decodes to a request whose
token name is `FromBody` and whose other fields are the rest of the body; anything else is
rejected. -/
def exDecode (b : GoString) : Except GoError (WithdrawalRequest GoString) :=
  match b with
  | [] => Except.error (Errorf (lit "EOF"))
  | c :: cs =>
    if c = 123 then Except.ok { TokenName := lit "FromBody", rest := cs }
    else Except.error (Errorf (lit "invalid character"))

/-- A token service that accepts everything and returns job 1 and transaction 2. -/
def exTokensService : TokensService Nat Nat GoString where
  Setup := fun _ _ _ => { job := 1, tx := 2, err := none }
  CreateWithdrawal := fun _ _ _ => { job := 1, tx := 2, err := none }

/-- A withdrawal request on `/accounts/0x1/ft-tokens/FlowToken/withdrawals` with the given
body and no sync header. -/
def exRequest (body : ReqBody) : Request where
  Vars := fun k =>
    if k = lit "address" then lit "0x1" else if k = lit "tokenName" then lit "FlowToken" else []
  HeaderGet := fun _ => []
  Body := body

/-! ## Examples used by the witnesses of the template service -/

/-- Example package functions: an address is valid when it has three bytes, and validation
returns it unchanged; code generation concatenates. -/
def exTemplatesPkg : TemplatesPkg where
  FungibleSetupCode := fun t => lit "setup " ++ t.Name
  FungibleTransferCode := fun t => lit "transfer " ++ t.Name
  FungibleBalanceCode := fun t => lit "balance " ++ t.Name
  TokenCode := fun t code => code ++ t.Address
  ValidateAddress := fun a _ =>
    if a.length = 3 then Except.ok a else Except.error (Errorf (lit "not a valid address"))

/-- An example service on the emulator chain with no enabled tokens. -/
def exService : Service := { cfg := { enabledTokens := [], ChainId := lit "flow-emulator" } }

/-- An example token named `Tok` at address `0x1`. -/
def exToken : Token :=
  { Name := lit "Tok", Address := lit "0x1", Setup := lit "s", Transfer := lit "t",
    Balance := lit "b", Type_ := TokenType.FT }

/-- A map store holding only the example token. -/
def exMapStore : MapStore := fun name => if name = lit "Tok" then some exToken else none

/-- A store that is unreachable: every lookup fails with `connection lost`. -/
def exDownStore : Store Unit where
  GetByName := fun s _ => (Except.error (Errorf (lit "connection lost")), s)
  Insert := fun s _ => (none, s)

/-- Whether a byte is a lowercase hexadecimal digit. -/
def isHexDigit (b : Byte) : Bool :=
  (48 ≤ b.val && b.val ≤ 57) || (97 ≤ b.val && b.val ≤ 102)

/-- Example package functions whose address validation accepts exactly the strings of sixteen
lowercase hexadecimal digits and returns them unchanged. -/
def exHexPkg : TemplatesPkg where
  FungibleSetupCode := fun t => lit "setup " ++ t.Name
  FungibleTransferCode := fun t => lit "transfer " ++ t.Name
  FungibleBalanceCode := fun t => lit "balance " ++ t.Name
  TokenCode := fun t code => code ++ t.Address
  ValidateAddress := fun a _ =>
    if a.length = 16 ∧ a.all isHexDigit = true then Except.ok a
    else Except.error (Errorf (lit "not a valid address"))

/-- A map store holding only the token `FlowToken` at address `0ae53cb6e3f42a79`. -/
def exFlowStore : MapStore := fun name =>
  if name = lit "FlowToken" then
    some { Name := lit "FlowToken", Address := lit "0ae53cb6e3f42a79", Setup := [],
           Transfer := [], Balance := [], Type_ := TokenType.FT }
  else none

/-- A store whose lookup returns a `nil` token together with a `nil` error. -/
def exNilStore : Store Unit where
  GetByName := fun s _ => (Except.ok none, s)
  Insert := fun s _ => (none, s)

/-! ## Theorems: key manager -/

/-- C1: `Load` undoes `Save`.  When the crypter decrypts every encryption back to the plaintext
and the algorithm parsers invert the `String` methods on the key's algorithms, `Save k` succeeds
with a storable `st` and `Load st` returns a key equal to `k`, in particular in each of
`Index`, `Type`, `Value`, `SignAlgo` and `HashAlgo`. -/
theorem C1_load_save_roundtrip {SA HA : Type} (crypto : CryptoPkg SA HA) (crypter : Crypter)
    (k : Private SA HA)
    (hcrypt : ∀ b, ∃ c, crypter.Encrypt b = Except.ok c ∧ crypter.Decrypt c = Except.ok b)
    (hsig : crypto.StringToSignatureAlgorithm (crypto.SigString k.SignAlgo) = k.SignAlgo)
    (hhash : crypto.StringToHashAlgorithm (crypto.HashString k.HashAlgo) = k.HashAlgo) :
    ∃ st k', Save crypto crypter k = Except.ok st ∧ Load crypto crypter st = Except.ok k' ∧
      k'.Index = k.Index ∧ k'.Type_ = k.Type_ ∧ k'.Value = k.Value ∧
      k'.SignAlgo = k.SignAlgo ∧ k'.HashAlgo = k.HashAlgo ∧ k' = k := by
  obtain ⟨c, henc, hdec⟩ := hcrypt k.Value
  refine ⟨{ Index := k.Index, Type_ := k.Type_, Value := c,
            SignAlgo := crypto.SigString k.SignAlgo,
            HashAlgo := crypto.HashString k.HashAlgo }, k, ?_, ?_, rfl, rfl, rfl, rfl, rfl, rfl⟩
  · simp only [Save, henc]
  · simp only [Load, hdec, hsig, hhash]

/-- Witness for C1 on the example crypter and key. -/
theorem C1_load_save_roundtrip_witness :
    ∃ st k', Save exCrypto exCrypter exPrivate = Except.ok st ∧
      Load exCrypto exCrypter st = Except.ok k' ∧
      k'.Index = exPrivate.Index ∧ k'.Type_ = exPrivate.Type_ ∧ k'.Value = exPrivate.Value ∧
      k'.SignAlgo = exPrivate.SignAlgo ∧ k'.HashAlgo = exPrivate.HashAlgo ∧ k' = exPrivate :=
  C1_load_save_roundtrip exCrypto exCrypter exPrivate
    (fun b => ⟨7 :: b.reverse, rfl, by simp [exCrypter]⟩)
    (by decide) (by decide)

/-! ## Theorems: handlers -/

/-- C2: `Accounts.CreateFunc` makes exactly one service call per request, `CreateSync` when the
sync header value is non-empty and `CreateAsync` otherwise; when that call returns no error the
only response is 201 with the call's result as body and `handleError` is not called; when it
returns an error no JSON response is written at all and the error goes to `handleError`. -/
theorem C2_create_func_dispatch {A J : Type} (SYNC_HEADER : GoString)
    (service : AccountsService A J) (r : Request) :
    let tr := Accounts.CreateFunc SYNC_HEADER service r
    let chosen : Except GoError (AccountsBody A J) :=
      if r.HeaderGet SYNC_HEADER ≠ [] then
        match service.CreateSync with
        | Except.ok a => Except.ok (AccountsBody.sync a)
        | Except.error e => Except.error e
      else
        match service.CreateAsync with
        | Except.ok j => Except.ok (AccountsBody.async j)
        | Except.error e => Except.error e
    Accounts.calls tr =
        [if r.HeaderGet SYNC_HEADER ≠ [] then AccountsEvent.callCreateSync
          else AccountsEvent.callCreateAsync] ∧
      Accounts.responses tr =
        (match chosen with
          | Except.ok res => [(StatusCreated, res)]
          | Except.error _ => []) ∧
      Accounts.errors tr =
        (match chosen with
          | Except.ok _ => []
          | Except.error e => [e]) := by
  intro tr chosen
  simp only [tr, chosen, Accounts.CreateFunc]
  by_cases h : r.HeaderGet SYNC_HEADER = []
  · cases hc : service.CreateAsync <;>
      simp [h, Accounts.calls, Accounts.responses, Accounts.errors]
  · cases hc : service.CreateSync <;>
      simp [h, Accounts.calls, Accounts.responses, Accounts.errors]

/-- C3: in `Tokens.SetupFunc` and `Tokens.CreateWithdrawalFunc` the sync flag passed to the
service is true exactly when the sync header value is non-empty; a 201 response is written
exactly when the service was called and returned no error, and its body is the transaction of
that call when the flag is true and the job when the flag is false, never the other one. -/
theorem C3_token_handlers_sync_flag {J T R : Type} (SyncHeader : GoString)
    (decode : GoString → Except GoError (WithdrawalRequest R))
    (service : TokensService J T R) (r : Request) :
    let sync : Bool := decide (r.HeaderGet SyncHeader ≠ [])
    let address := r.Vars (lit "address")
    let tokenName := r.Vars (lit "tokenName")
    let pick : TokensResult J T → TokensBody J T := fun out =>
      if sync then TokensBody.tx out.tx else TokensBody.job out.job
    let other : TokensResult J T → TokensBody J T := fun out =>
      if sync then TokensBody.job out.job else TokensBody.tx out.tx
    (sync = true ↔ r.HeaderGet SyncHeader ≠ []) ∧
    (∀ out, pick out ≠ other out) ∧
    (let tr := Tokens.SetupFunc SyncHeader service r
     let out := service.Setup sync tokenName address
     Tokens.calls tr = [TokensEvent.callSetup sync tokenName address] ∧
       Tokens.responses tr = (if out.err = none then [(StatusCreated, pick out)] else [])) ∧
    (let tr := Tokens.CreateWithdrawalFunc SyncHeader decode service r
     match r.Body with
     | ReqBody.reader content =>
       (match decode content with
        | Except.ok decoded =>
          let withdrawal : WithdrawalRequest R := { decoded with TokenName := tokenName }
          let out := service.CreateWithdrawal sync address withdrawal
          Tokens.calls tr = [TokensEvent.callCreateWithdrawal sync address withdrawal] ∧
            Tokens.responses tr =
              (if out.err = none then [(StatusCreated, pick out)] else [])
        | Except.error _ => Tokens.calls tr = [] ∧ Tokens.responses tr = [])
     | _ => Tokens.calls tr = [] ∧ Tokens.responses tr = []) := by
  intro sync address tokenName pick other
  refine ⟨by simp [sync], ?_, ?_, ?_⟩
  · intro out
    simp only [pick, other]
    cases sync <;> simp
  · simp only [Tokens.SetupFunc]
    cases herr : (service.Setup sync tokenName address).err <;>
      simp [herr, sync, address, tokenName, pick, Tokens.calls, Tokens.responses]
  · cases hb : r.Body with
    | nil => simp [Tokens.CreateWithdrawalFunc, hb, Tokens.calls, Tokens.responses]
    | noBody => simp [Tokens.CreateWithdrawalFunc, hb, Tokens.calls, Tokens.responses]
    | reader content =>
      cases hd : decode content with
      | error e => simp [Tokens.CreateWithdrawalFunc, hb, hd, Tokens.calls, Tokens.responses]
      | ok decoded =>
        cases herr : (service.CreateWithdrawal sync address
            { decoded with TokenName := tokenName }).err <;>
          simp [Tokens.CreateWithdrawalFunc, hb, hd, herr, sync, address, tokenName, pick,
            Tokens.calls, Tokens.responses] <;>
          simp [sync, address, tokenName] at herr <;> simp [herr]

/-- C4: `Tokens.CreateWithdrawalFunc` rejects a bad body before doing any work.  When the body
is `nil` or `http.NoBody`, or its bytes do not decode, the handler does exactly one thing: it
hands `handleError` a `RequestError` with status 400 whose message is `empty body` in the first
two cases and `invalid body` in the third; the service is not called and no JSON response
(so no 201) is written. -/
theorem C4_bad_body_rejected {J T R : Type} (SyncHeader : GoString)
    (decode : GoString → Except GoError (WithdrawalRequest R))
    (service : TokensService J T R) (r : Request)
    (hbad : r.Body = ReqBody.nil ∨ r.Body = ReqBody.noBody ∨
      ∃ content e, r.Body = ReqBody.reader content ∧ decode content = Except.error e) :
    let tr := Tokens.CreateWithdrawalFunc SyncHeader decode service r
    let msg : GoString :=
      match r.Body with
      | ReqBody.reader _ => lit "invalid body"
      | _ => lit "empty body"
    tr = [TokensEvent.handleError (GoError.request 400 (Errorf msg))] ∧
      Tokens.errors tr = [GoError.request StatusBadRequest (Errorf msg)] ∧
      Tokens.calls tr = [] ∧
      Tokens.responses tr = [] ∧
      (∀ sync address w, TokensEvent.callCreateWithdrawal sync address w ∉ tr) ∧
      (∀ body, TokensEvent.handleJsonResponse StatusCreated body ∉ tr) := by
  intro tr msg
  have htr : tr = [TokensEvent.handleError (GoError.request 400 (Errorf msg))] := by
    rcases hbad with h | h | ⟨content, e, h, hd⟩
    · simp [tr, msg, Tokens.CreateWithdrawalFunc, h, StatusBadRequest]
    · simp [tr, msg, Tokens.CreateWithdrawalFunc, h, StatusBadRequest]
    · simp [tr, msg, Tokens.CreateWithdrawalFunc, h, hd, StatusBadRequest]
  refine ⟨htr, ?_, ?_, ?_, ?_, ?_⟩ <;> rw [htr] <;>
    simp [Tokens.errors, Tokens.calls, Tokens.responses, StatusBadRequest]

/-- Witness for C4: a `nil` body, and a body that the example decoder rejects. -/
theorem C4_bad_body_rejected_witness :
    Tokens.CreateWithdrawalFunc (lit "Use-Sync") exDecode exTokensService (exRequest ReqBody.nil)
        = [TokensEvent.handleError (GoError.request 400 (Errorf (lit "empty body")))] ∧
    Tokens.CreateWithdrawalFunc (lit "Use-Sync") exDecode exTokensService
        (exRequest (ReqBody.reader (lit "oops")))
        = [TokensEvent.handleError (GoError.request 400 (Errorf (lit "invalid body")))] :=
  ⟨(C4_bad_body_rejected (lit "Use-Sync") exDecode exTokensService (exRequest ReqBody.nil)
      (Or.inl rfl)).1,
   (C4_bad_body_rejected (lit "Use-Sync") exDecode exTokensService
      (exRequest (ReqBody.reader (lit "oops")))
      (Or.inr (Or.inr ⟨lit "oops", Errorf (lit "invalid character"), rfl, rfl⟩))).1⟩

/-- C5: for a request whose body decodes, the only service call of
`Tokens.CreateWithdrawalFunc` is `CreateWithdrawal` with the `address` path variable as address
and a request whose `TokenName` is the `tokenName` path variable, whatever token name the body
carried, and whose other fields are those decoded from the body. -/
theorem C5_withdrawal_token_name_from_url {J T R : Type} (SyncHeader : GoString)
    (decode : GoString → Except GoError (WithdrawalRequest R))
    (service : TokensService J T R) (r : Request) (content : GoString)
    (decoded : WithdrawalRequest R)
    (hbody : r.Body = ReqBody.reader content) (hdec : decode content = Except.ok decoded) :
    ∃ sync w,
      Tokens.calls (Tokens.CreateWithdrawalFunc SyncHeader decode service r) =
        [TokensEvent.callCreateWithdrawal sync (r.Vars (lit "address")) w] ∧
      w.TokenName = r.Vars (lit "tokenName") ∧ w.rest = decoded.rest := by
  refine ⟨decide (r.HeaderGet SyncHeader ≠ []),
    { decoded with TokenName := r.Vars (lit "tokenName") }, ?_, rfl, rfl⟩
  cases herr : (service.CreateWithdrawal (decide (r.HeaderGet SyncHeader ≠ []))
      (r.Vars (lit "address")) { decoded with TokenName := r.Vars (lit "tokenName") }).err <;>
    simp [Tokens.CreateWithdrawalFunc, hbody, hdec, Tokens.calls] <;>
    simp at herr <;> simp [herr]

/-- Witness for C5: the body carries the token name `FromBody`, the URL says `FlowToken`. -/
theorem C5_withdrawal_token_name_from_url_witness :
    ∃ sync w,
      Tokens.calls (Tokens.CreateWithdrawalFunc (lit "Use-Sync") exDecode exTokensService
          (exRequest (ReqBody.reader (lit "\x7bab")))) =
        [TokensEvent.callCreateWithdrawal sync (lit "0x1") w] ∧
      w.TokenName = lit "FlowToken" ∧ w.rest = lit "ab" :=
  C5_withdrawal_token_name_from_url (lit "Use-Sync") exDecode exTokensService
    (exRequest (ReqBody.reader (lit "\x7bab"))) (lit "\x7bab")
    { TokenName := lit "FromBody", rest := lit "ab" } rfl rfl

/-! ## Theorems: token bootstrap -/

/-- The bootstrap loop only appends to the log of inserts it was started with. -/
theorem bootstrap_log {S : Type} (pkg : TemplatesPkg) (store : Store S) (ts : List Token) :
    ∀ (s : S) (log : List Token),
      bootstrap pkg store ts s log =
        { panicked := (bootstrap pkg store ts s []).panicked
          store := (bootstrap pkg store ts s []).store
          inserts := log ++ (bootstrap pkg store ts s []).inserts } := by
  induction ts with
  | nil => intro s log; simp [bootstrap]
  | cons t ts ih =>
    intro s log
    simp only [bootstrap]
    rcases hg : store.GetByName s t.Name with ⟨res, s1⟩
    cases res with
    | ok tok => simpa using ih s1 log
    | error err =>
      by_cases hc : stringsContains err.Error (lit "record not found") = true
      · rcases hi : store.Insert s1 (fungibleToken pkg t) with ⟨r, s2⟩
        cases r with
        | some e => simp [hc, hi]
        | none =>
          simp only [hc, hi, Bool.not_true, Bool.false_eq_true, if_false, List.nil_append]
          rw [ih s2 (log ++ [fungibleToken pkg t]), ih s2 [fungibleToken pkg t]]
          simp
      · simp [hc]

/-- Every token the bootstrap loop hands to `Insert` is the fungible form of an enabled token,
and the inserts follow the configuration order. -/
theorem bootstrap_inserts_sublist {S : Type} (pkg : TemplatesPkg) (store : Store S)
    (ts : List Token) :
    ∀ s : S, List.Sublist (bootstrap pkg store ts s []).inserts (ts.map (fungibleToken pkg)) := by
  induction ts with
  | nil => intro s; simp [bootstrap]
  | cons t ts ih =>
    intro s
    simp only [bootstrap, List.map_cons]
    rcases hg : store.GetByName s t.Name with ⟨res, s1⟩
    cases res with
    | ok tok => exact List.Sublist.cons _ (ih s1)
    | error err =>
      by_cases hc : stringsContains err.Error (lit "record not found") = true
      · rcases hi : store.Insert s1 (fungibleToken pkg t) with ⟨r, s2⟩
        cases r with
        | some e => simp [hc, hi]
        | none =>
          simp only [hc, hi, Bool.not_true, Bool.false_eq_true, if_false, List.nil_append]
          rw [bootstrap_log pkg store ts s2 [fungibleToken pkg t]]
          exact List.Sublist.cons₂ _ (ih s2)
      · simp [hc]

/-- C6: token bootstrap in `NewService`, for every enabled token `t` in configuration order
(the loop at `t :: ts` from store state `s`).  If the lookup by name succeeds, `t` is skipped.
If it fails with an error whose message contains `record not found`, `Insert` receives `t` with
`Type = FT` and `Setup`, `Transfer`, `Balance` set to the fungible setup, transfer and balance
code; an insert without error is followed by the rest of the loop, an insert with an error
panics with that error.  If the lookup fails with any other error the loop panics with it and
inserts nothing.  `NewService` returns a `Service` exactly when the loop did not panic, and
otherwise panics with the value of the loop; all its inserts are fungible forms of enabled
tokens in configuration order. -/
theorem C6_bootstrap_per_token {S : Type} (pkg : TemplatesPkg) (store : Store S) :
    (∀ t : Token,
      (fungibleToken pkg t).Type_ = TokenType.FT ∧
      (fungibleToken pkg t).Setup = pkg.FungibleSetupCode { t with Type_ := TokenType.FT } ∧
      (fungibleToken pkg t).Transfer =
        pkg.FungibleTransferCode
          { t with Type_ := TokenType.FT,
                   Setup := pkg.FungibleSetupCode { t with Type_ := TokenType.FT } } ∧
      (fungibleToken pkg t).Balance =
        pkg.FungibleBalanceCode
          { t with Type_ := TokenType.FT,
                   Setup := pkg.FungibleSetupCode { t with Type_ := TokenType.FT },
                   Transfer := (fungibleToken pkg t).Transfer } ∧
      (fungibleToken pkg t).Name = t.Name ∧ (fungibleToken pkg t).Address = t.Address) ∧
    (∀ (t : Token) (ts : List Token) (s : S),
      match store.GetByName s t.Name with
      | (Except.ok _, s1) =>
        bootstrap pkg store (t :: ts) s [] = bootstrap pkg store ts s1 []
      | (Except.error err, s1) =>
        if stringsContains err.Error (lit "record not found") = true then
          match store.Insert s1 (fungibleToken pkg t) with
          | (none, s2) =>
            bootstrap pkg store (t :: ts) s [] =
              { panicked := (bootstrap pkg store ts s2 []).panicked
                store := (bootstrap pkg store ts s2 []).store
                inserts := fungibleToken pkg t :: (bootstrap pkg store ts s2 []).inserts }
          | (some e, s2) =>
            bootstrap pkg store (t :: ts) s [] =
              { panicked := some e, store := s2, inserts := [fungibleToken pkg t] }
        else
          bootstrap pkg store (t :: ts) s [] = { panicked := some err, store := s1, inserts := [] }) ∧
    (∀ (cfg : TemplatesConfig) (s : S),
      let b := bootstrap pkg store cfg.enabledTokens s []
      NewService pkg cfg store s =
          ((match b.panicked with
            | some err => Outcome.panicErr err
            | none => Outcome.ret { cfg := cfg }), b.store, b.inserts) ∧
        List.Sublist b.inserts (cfg.enabledTokens.map (fungibleToken pkg)) ∧
        (cfg.enabledTokens = [] → b.panicked = none ∧ b.inserts = [] ∧ b.store = s)) := by
  refine ⟨fun t => ⟨rfl, rfl, rfl, rfl, rfl, rfl⟩, ?_, ?_⟩
  · intro t ts s
    rcases hg : store.GetByName s t.Name with ⟨res, s1⟩
    cases res with
    | ok tok => simp [bootstrap, hg]
    | error err =>
      by_cases hc : stringsContains err.Error (lit "record not found") = true
      · rcases hi : store.Insert s1 (fungibleToken pkg t) with ⟨r, s2⟩
        cases r with
        | some e => simp [bootstrap, hg, hc, hi]
        | none =>
          simp only [bootstrap, hg, hc, hi, Bool.not_true, Bool.false_eq_true, if_false,
            if_true, List.nil_append]
          rw [bootstrap_log pkg store ts s2 [fungibleToken pkg t]]
          simp
      · simp [bootstrap, hg, hc]
  · intro cfg s
    refine ⟨?_, bootstrap_inserts_sublist pkg store cfg.enabledTokens s, ?_⟩
    · simp only [NewService]
      cases (bootstrap pkg store cfg.enabledTokens s []).panicked <;> rfl
    · intro h
      simp [h, bootstrap]

/-- Witness for C6: over an unreachable store the first lookup panics with its error and
nothing is inserted; over a map store holding `Tok`, the enabled token `Tok` is skipped. -/
theorem C6_bootstrap_per_token_witness :
    bootstrap exTemplatesPkg exDownStore [exToken] () [] =
        { panicked := some (Errorf (lit "connection lost")), store := (), inserts := [] } ∧
    bootstrap exTemplatesPkg mapStore [exToken] exMapStore [] =
        bootstrap exTemplatesPkg mapStore [] exMapStore [] :=
  ⟨(C6_bootstrap_per_token exTemplatesPkg exDownStore).2.1 exToken [] (),
   (C6_bootstrap_per_token exTemplatesPkg mapStore).2.1 exToken [] exMapStore⟩

/-! ## Theorems: bootstrap over a map store -/

/-- Over the map store, a token whose name is bound is skipped. -/
theorem bootstrap_map_found (pkg : TemplatesPkg) (t : Token) (ts : List Token) (s : MapStore)
    (tok : Token) (h : s t.Name = some tok) :
    bootstrap pkg mapStore (t :: ts) s [] = bootstrap pkg mapStore ts s [] := by
  simp [bootstrap, mapStore, h]

/-- Over the map store, a token whose name is free is inserted and the loop goes on. -/
theorem bootstrap_map_absent (pkg : TemplatesPkg) (t : Token) (ts : List Token) (s : MapStore)
    (h : s t.Name = none) :
    bootstrap pkg mapStore (t :: ts) s [] =
      { panicked :=
          (bootstrap pkg mapStore ts (mapStore.Insert s (fungibleToken pkg t)).2 []).panicked
        store := (bootstrap pkg mapStore ts (mapStore.Insert s (fungibleToken pkg t)).2 []).store
        inserts := fungibleToken pkg t ::
          (bootstrap pkg mapStore ts (mapStore.Insert s (fungibleToken pkg t)).2 []).inserts } := by
  have hc : stringsContains (Errorf (lit "record not found")).Error (lit "record not found")
      = true := by decide
  have hstep : bootstrap pkg mapStore (t :: ts) s [] =
      bootstrap pkg mapStore ts (mapStore.Insert s (fungibleToken pkg t)).2
        [fungibleToken pkg t] := by
    simp [bootstrap, mapStore, h, hc]
  rw [hstep, bootstrap_log]
  simp

/-- The invariants of the bootstrap loop over the map store: it does not panic, it keeps every
binding it found, it inserts only names that were free, no name twice, and afterwards every
enabled name is bound. -/
theorem bootstrap_map_spec (pkg : TemplatesPkg) (ts : List Token) :
    ∀ s : MapStore,
      (bootstrap pkg mapStore ts s []).panicked = none ∧
      (∀ name tok, s name = some tok →
        (bootstrap pkg mapStore ts s []).store name = some tok) ∧
      (∀ tok ∈ (bootstrap pkg mapStore ts s []).inserts, s tok.Name = none) ∧
      ((bootstrap pkg mapStore ts s []).inserts.map Token.Name).Nodup ∧
      (∀ t ∈ ts, ((bootstrap pkg mapStore ts s []).store t.Name).isSome = true) := by
  induction ts with
  | nil => intro s; simp [bootstrap]
  | cons t ts ih =>
    intro s
    cases h : s t.Name with
    | some tok =>
      rw [bootstrap_map_found pkg t ts s tok h]
      obtain ⟨h1, h2, h3, h4, h5⟩ := ih s
      refine ⟨h1, h2, h3, h4, ?_⟩
      intro t' ht'
      rcases List.mem_cons.1 ht' with rfl | hmem
      · rw [h2 _ tok h]; rfl
      · exact h5 t' hmem
    | none =>
      rw [bootstrap_map_absent pkg t ts s h]
      obtain ⟨h1, h2, h3, h4, h5⟩ := ih (mapStore.Insert s (fungibleToken pkg t)).2
      have hname : (fungibleToken pkg t).Name = t.Name := rfl
      have hins : ∀ name, (mapStore.Insert s (fungibleToken pkg t)).2 name =
          if name = t.Name then some (fungibleToken pkg t) else s name := fun _ => rfl
      refine ⟨h1, ?_, ?_, ?_, ?_⟩
      · intro name tok hs
        apply h2
        rw [hins]
        have hne : name ≠ t.Name := by
          intro he
          rw [he, h] at hs
          cases hs
        simp [hne, hs]
      · intro tok htok
        rcases List.mem_cons.1 htok with rfl | hmem
        · rw [hname]; exact h
        · have h3' := h3 tok hmem
          rw [hins] at h3'
          by_cases he : tok.Name = t.Name
          · simp [he] at h3'
          · simpa [he] using h3'
      · simp only [List.map_cons, List.nodup_cons]
        refine ⟨?_, h4⟩
        intro hmem
        obtain ⟨tok, htok, hn⟩ := List.mem_map.1 hmem
        have h3' := h3 tok htok
        rw [hins, hn, hname] at h3'
        simp at h3'
      · intro t' ht'
        rcases List.mem_cons.1 ht' with rfl | hmem
        · have := h2 t'.Name (fungibleToken pkg t') (by rw [hins]; simp)
          simp only at this
          rw [this]; rfl
        · exact h5 t' hmem

/-- Over the map store, when every enabled name is bound the loop inserts nothing and leaves
the store as it is. -/
theorem bootstrap_map_all_bound (pkg : TemplatesPkg) (ts : List Token) (s : MapStore)
    (h : ∀ t ∈ ts, (s t.Name).isSome = true) :
    bootstrap pkg mapStore ts s [] = { panicked := none, store := s, inserts := [] } := by
  induction ts with
  | nil => simp [bootstrap]
  | cons t ts ih =>
    obtain ⟨tok, htok⟩ := Option.isSome_iff_exists.1 (h t (List.mem_cons_self _ _))
    rw [bootstrap_map_found pkg t ts s tok htok]
    exact ih (fun t' ht' => h t' (List.mem_cons_of_mem _ ht'))

/-- Over the map store, `GetByName` returns a token exactly when the name is bound to it. -/
theorem mapStore_get_ok_iff (s : MapStore) (name : GoString) (tok : Token) :
    (mapStore.GetByName s name).1 = Except.ok (some tok) ↔ s name = some tok := by
  cases hn : s name with
  | none => simp [mapStore, hn]
  | some tok' => simp [mapStore, hn]

/-- C10: token bootstrap over a map store is idempotent and never overwrites.  `NewService`
returns a service; every token bound in the store before the call is bound to the same token
afterwards; the names of the inserted tokens were all free before the call and no name is
inserted twice, however often it occurs in the enabled list; a second `NewService` on the
resulting store with the same configuration makes no insert, leaves the store as the first call
left it, and returns a service. -/
theorem C10_bootstrap_idempotent (pkg : TemplatesPkg) (cfg : TemplatesConfig) (s : MapStore) :
    let r1 := NewService pkg cfg mapStore s
    let r2 := NewService pkg cfg mapStore r1.2.1
    r1.1 = Outcome.ret { cfg := cfg } ∧
    (∀ (name : GoString) (tok : Token),
      (mapStore.GetByName s name).1 = Except.ok (some tok) →
      (mapStore.GetByName r1.2.1 name).1 = Except.ok (some tok)) ∧
    (∀ tok ∈ r1.2.2, s tok.Name = none) ∧
    (r1.2.2.map Token.Name).Nodup ∧
    (∀ name, (r1.2.2.filter (fun tok => tok.Name = name)).length ≤ 1) ∧
    r2.1 = Outcome.ret { cfg := cfg } ∧
    r2.2.2 = [] ∧
    r2.2.1 = r1.2.1 := by
  intro r1 r2
  obtain ⟨h1, h2, h3, h4, h5⟩ := bootstrap_map_spec pkg cfg.enabledTokens s
  have hr1 : r1 = (Outcome.ret { cfg := cfg },
      (bootstrap pkg mapStore cfg.enabledTokens s []).store,
      (bootstrap pkg mapStore cfg.enabledTokens s []).inserts) := by
    simp only [r1, NewService, h1]
  have hr2 : r2 = (Outcome.ret { cfg := cfg }, r1.2.1, []) := by
    simp only [r2, NewService]
    rw [bootstrap_map_all_bound pkg cfg.enabledTokens r1.2.1 (by rw [hr1]; exact h5)]
  refine ⟨by rw [hr1], ?_, by rw [hr1]; exact h3, by rw [hr1]; exact h4, ?_,
    by rw [hr2], by rw [hr2], by rw [hr2]⟩
  · intro name tok hget
    rw [hr1]
    exact (mapStore_get_ok_iff _ name tok).2 (h2 name tok ((mapStore_get_ok_iff s name tok).1 hget))
  · intro name
    rw [hr1]
    by_contra hlt
    push_neg at hlt
    match hf : (bootstrap pkg mapStore cfg.enabledTokens s []).inserts.filter
        (fun tok => tok.Name = name), hlt with
    | [], hlt => simp [hf] at hlt
    | [_], hlt => simp [hf] at hlt
    | a :: b :: rest, _ =>
      have ha : a ∈ (bootstrap pkg mapStore cfg.enabledTokens s []).inserts.filter
          (fun tok => tok.Name = name) := by rw [hf]; simp
      have hb : b ∈ (bootstrap pkg mapStore cfg.enabledTokens s []).inserts.filter
          (fun tok => tok.Name = name) := by rw [hf]; simp
      have han : a.Name = name := by simpa using (List.mem_filter.1 ha).2
      have hbn : b.Name = name := by simpa using (List.mem_filter.1 hb).2
      have hmapnd : ((a :: b :: rest).map Token.Name).Nodup := by
        rw [← hf]
        exact List.Nodup.sublist (List.Sublist.map _ (List.filter_sublist _)) h4
      simp [han, hbn] at hmapnd

/-! ## Theorems: template service -/

/-- C9: `Service.AddToken` inserts nothing when validation fails.  If the address of the token
is not valid for the configured chain, the validation error is returned, `Insert` is not called
and the caller's token is untouched.  If the address is valid but the name is empty, an error
is returned, `Insert` is not called, and the caller's token has had its `Address` overwritten
with the validated address.  If both checks pass, `Insert` is called once, with a token whose
`Address` is the validated address and whose `Setup`, `Transfer` and `Balance` are `TokenCode`
applied to the received templates, and `AddToken` returns exactly the result of `Insert`. -/
theorem C9_add_token_validation {S : Type} (pkg : TemplatesPkg) (store : Store S)
    (svc : Service) (s : S) (t : Token) :
    let r := Service.AddToken pkg store svc s t
    match pkg.ValidateAddress t.Address svc.cfg.ChainId with
    | Except.error err => r.err = some err ∧ r.inserts = [] ∧ r.store = s ∧ r.token = t
    | Except.ok address =>
      if t.Name = [] then
        r.err = some (Errorf (lit "not a valid name: \x22" ++ t.Name ++ lit "\x22")) ∧
          r.inserts = [] ∧ r.store = s ∧ r.token = { t with Address := address }
      else
        ∃ tok, r.inserts = [tok] ∧
          tok.Address = address ∧
          tok.Setup = pkg.TokenCode { t with Address := address } t.Setup ∧
          tok.Transfer =
            pkg.TokenCode { t with Address := address, Setup := tok.Setup } t.Transfer ∧
          tok.Balance =
            pkg.TokenCode { t with Address := address, Setup := tok.Setup,
                                   Transfer := tok.Transfer } t.Balance ∧
          tok.Name = t.Name ∧ tok.Type_ = t.Type_ ∧
          r.err = (store.Insert s tok).1 ∧ r.store = (store.Insert s tok).2 := by
  intro r
  cases hv : pkg.ValidateAddress t.Address svc.cfg.ChainId with
  | error err => simp [r, Service.AddToken, hv]
  | ok address =>
    by_cases hn : t.Name = []
    · simp [r, Service.AddToken, hv, hn]
    · simp only [hn, if_false]
      refine ⟨{ t with
          Address := address
          Setup := pkg.TokenCode { t with Address := address } t.Setup
          Transfer := pkg.TokenCode
            { t with Address := address,
                     Setup := pkg.TokenCode { t with Address := address } t.Setup } t.Transfer
          Balance := pkg.TokenCode
            { t with Address := address,
                     Setup := pkg.TokenCode { t with Address := address } t.Setup,
                     Transfer := pkg.TokenCode
                       { t with Address := address,
                                Setup := pkg.TokenCode { t with Address := address } t.Setup }
                       t.Transfer } t.Balance },
        ?_, rfl, rfl, rfl, rfl, rfl, rfl, ?_, ?_⟩ <;>
        simp [r, Service.AddToken, hv, hn]

/-- Witness for C9: an invalid address, an empty name, and a token that passes both checks. -/
theorem C9_add_token_validation_witness :
    (Service.AddToken exTemplatesPkg mapStore exService exMapStore
        { exToken with Address := lit "bad address" }).inserts = [] ∧
    (Service.AddToken exTemplatesPkg mapStore exService exMapStore
        { exToken with Name := [] }).inserts = [] ∧
    (Service.AddToken exTemplatesPkg mapStore exService exMapStore
        { exToken with Name := [] }).token.Address = lit "0x1" ∧
    (∃ tok, (Service.AddToken exTemplatesPkg mapStore exService exMapStore exToken).inserts
        = [tok] ∧ tok.Address = lit "0x1" ∧ tok.Setup = lit "s0x1") :=
  ⟨(C9_add_token_validation exTemplatesPkg mapStore exService exMapStore
      { exToken with Address := lit "bad address" }).2.1,
   (C9_add_token_validation exTemplatesPkg mapStore exService exMapStore
      { exToken with Name := [] }).2.1,
   by
    have h := (C9_add_token_validation exTemplatesPkg mapStore exService exMapStore
      { exToken with Name := [] }).2.2.2
    rw [h]; rfl,
   by
    obtain ⟨tok, h, ha, hs, -⟩ :=
      C9_add_token_validation exTemplatesPkg mapStore exService exMapStore exToken
    exact ⟨tok, h, ha, hs.trans rfl⟩⟩

/-- C8: `Service.TokenFromEvent` on the event type split on `.`.  It returns a token `tok`
without error only if the second segment validates for the configured chain, `tok` is the
result of the store lookup by the third segment, the address of `tok` validates, and the two
validated addresses are equal (and it does return `tok` whenever all of these hold).  When the
two validated addresses differ it returns the `addresses do not match` error, and an error of
either validation or of the lookup is returned as it is; in each of these cases no token is
returned. -/
theorem C8_token_from_event {S : Type} (pkg : TemplatesPkg) (store : Store S) (svc : Service)
    (s : S) (eType : GoString) :
    let r := Service.TokenFromEvent pkg store svc s eType
    let ss := stringsSplit eType 46
    (∀ tok, r.1 = Outcome.ret tok ↔
      ∃ ss1 ss2 eAddress tAddress,
        ss[1]? = some ss1 ∧ ss[2]? = some ss2 ∧
        pkg.ValidateAddress ss1 svc.cfg.ChainId = Except.ok eAddress ∧
        (store.GetByName s ss2).1 = Except.ok (some tok) ∧
        pkg.ValidateAddress tok.Address svc.cfg.ChainId = Except.ok tAddress ∧
        eAddress = tAddress) ∧
    (∀ ss1 ss2 eAddress (token : Token) tAddress,
      ss[1]? = some ss1 → ss[2]? = some ss2 →
      pkg.ValidateAddress ss1 svc.cfg.ChainId = Except.ok eAddress →
      (store.GetByName s ss2).1 = Except.ok (some token) →
      pkg.ValidateAddress token.Address svc.cfg.ChainId = Except.ok tAddress →
      eAddress ≠ tAddress →
      r.1 = Outcome.fail (Errorf (lit "addresses do not match for " ++ token.Name ++
        lit ", from event: " ++ eAddress ++ lit ", from database: " ++ tAddress))) ∧
    (∀ ss1 err,
      ss[1]? = some ss1 → pkg.ValidateAddress ss1 svc.cfg.ChainId = Except.error err →
      r.1 = Outcome.fail err) ∧
    (∀ ss1 ss2 eAddress err,
      ss[1]? = some ss1 → ss[2]? = some ss2 →
      pkg.ValidateAddress ss1 svc.cfg.ChainId = Except.ok eAddress →
      (store.GetByName s ss2).1 = Except.error err →
      r.1 = Outcome.fail err) ∧
    (∀ ss1 ss2 eAddress (token : Token) err,
      ss[1]? = some ss1 → ss[2]? = some ss2 →
      pkg.ValidateAddress ss1 svc.cfg.ChainId = Except.ok eAddress →
      (store.GetByName s ss2).1 = Except.ok (some token) →
      pkg.ValidateAddress token.Address svc.cfg.ChainId = Except.error err →
      r.1 = Outcome.fail err) := by
  intro r ss
  have hr : r = Service.TokenFromEvent pkg store svc s eType := rfl
  have hss : ss = stringsSplit eType 46 := rfl
  clear_value r ss
  subst hss
  refine ⟨?_, ?_, ?_, ?_, ?_⟩
  · intro tok
    rw [hr]
    cases h1 : (stringsSplit eType 46)[1]? with
    | none =>
      have hres : (Service.TokenFromEvent pkg store svc s eType).1 =
          Outcome.panicIndex 1 (stringsSplit eType 46).length := by
        simp [Service.TokenFromEvent, h1]
      rw [hres]
      constructor
      · intro h; cases h
      · rintro ⟨a, b, c, d, ha, -⟩; cases ha
    | some ss1 =>
      cases hv1 : pkg.ValidateAddress ss1 svc.cfg.ChainId with
      | error err =>
        have hres : (Service.TokenFromEvent pkg store svc s eType).1 = Outcome.fail err := by
          simp [Service.TokenFromEvent, h1, hv1]
        rw [hres]
        constructor
        · intro h; cases h
        · rintro ⟨a, b, c, d, ha, -, hc, -⟩
          cases ha
          rw [hv1] at hc
          cases hc
      | ok eAddress =>
        cases h2 : (stringsSplit eType 46)[2]? with
        | none =>
          have hres : (Service.TokenFromEvent pkg store svc s eType).1 =
              Outcome.panicIndex 2 (stringsSplit eType 46).length := by
            simp [Service.TokenFromEvent, h1, hv1, h2]
          rw [hres]
          constructor
          · intro h; cases h
          · rintro ⟨a, b, c, d, -, hb, -⟩; cases hb
        | some ss2 =>
          rcases hg : store.GetByName s ss2 with ⟨res, s1⟩
          cases res with
          | error err =>
            have hres : (Service.TokenFromEvent pkg store svc s eType).1 = Outcome.fail err := by
              simp [Service.TokenFromEvent, Service.GetTokenByName, h1, hv1, h2, hg]
            rw [hres]
            constructor
            · intro h; cases h
            · rintro ⟨a, b, c, d, -, hb, -, hd, -⟩
              cases hb
              rw [hg] at hd
              cases hd
          | ok ptr =>
            cases ptr with
            | none =>
              have hres : (Service.TokenFromEvent pkg store svc s eType).1 =
                  Outcome.panicNil := by
                simp [Service.TokenFromEvent, Service.GetTokenByName, h1, hv1, h2, hg]
              rw [hres]
              constructor
              · intro h; cases h
              · rintro ⟨a, b, c, d, -, hb, -, hd, -⟩
                cases hb
                rw [hg] at hd
                cases hd
            | some token =>
            cases hv2 : pkg.ValidateAddress token.Address svc.cfg.ChainId with
            | error err =>
              have hres : (Service.TokenFromEvent pkg store svc s eType).1 =
                  Outcome.fail err := by
                simp [Service.TokenFromEvent, Service.GetTokenByName, h1, hv1, h2, hg, hv2]
              rw [hres]
              constructor
              · intro h; cases h
              · rintro ⟨a, b, c, d, -, hb, -, hd, he, -⟩
                cases hb
                rw [hg] at hd
                cases hd
                rw [hv2] at he
                cases he
            | ok tAddress =>
              by_cases hne : eAddress = tAddress
              · have hres : (Service.TokenFromEvent pkg store svc s eType).1 =
                    Outcome.ret token := by
                  simp [Service.TokenFromEvent, Service.GetTokenByName, h1, hv1, h2, hg, hv2,
                    hne]
                rw [hres]
                constructor
                · intro h
                  cases h
                  exact ⟨ss1, ss2, eAddress, tAddress, rfl, rfl, hv1, by rw [hg], hv2, hne⟩
                · rintro ⟨a, b, c, d, -, hb, -, hd, -⟩
                  cases hb
                  rw [hg] at hd
                  cases hd
                  rfl
              · have hres : (Service.TokenFromEvent pkg store svc s eType).1 =
                    Outcome.fail (Errorf (lit "addresses do not match for " ++ token.Name ++
                      lit ", from event: " ++ eAddress ++ lit ", from database: " ++
                      tAddress)) := by
                  simp [Service.TokenFromEvent, Service.GetTokenByName, h1, hv1, h2, hg, hv2,
                    hne]
                rw [hres]
                constructor
                · intro h; cases h
                · rintro ⟨a, b, c, d, ha, hb, hc, hd, he, hf⟩
                  cases ha
                  cases hb
                  rw [hg] at hd
                  cases hd
                  rw [hv1] at hc
                  rw [hv2] at he
                  cases hc
                  cases he
                  exact absurd hf hne
  · intro ss1 ss2 eAddress token tAddress h1 h2 hv1 hg hv2 hne
    rcases hg' : store.GetByName s ss2 with ⟨res, s1⟩
    rw [hg'] at hg
    simp only at hg
    subst hg
    rw [hr]
    simp [Service.TokenFromEvent, Service.GetTokenByName, h1, h2, hv1, hg', hv2, hne]
  · intro ss1 err h1 hv1
    rw [hr]
    simp [Service.TokenFromEvent, h1, hv1]
  · intro ss1 ss2 eAddress err h1 h2 hv1 hg
    rcases hg' : store.GetByName s ss2 with ⟨res, s1⟩
    rw [hg'] at hg
    simp only at hg
    subst hg
    rw [hr]
    simp [Service.TokenFromEvent, Service.GetTokenByName, h1, h2, hv1, hg']
  · intro ss1 ss2 eAddress token err h1 h2 hv1 hg hv2
    rcases hg' : store.GetByName s ss2 with ⟨res, s1⟩
    rw [hg'] at hg
    simp only at hg
    subst hg
    rw [hr]
    simp [Service.TokenFromEvent, Service.GetTokenByName, h1, h2, hv1, hg', hv2]

/-- Witness for C8: the event `A.0x1.Tok.Deposited` over a store holding the token `Tok` at
`0x1` yields that token, and the event `A.0x2.Tok.Deposited` yields the mismatch error. -/
theorem C8_token_from_event_witness :
    (Service.TokenFromEvent exTemplatesPkg mapStore exService exMapStore
        (lit "A.0x1.Tok.Deposited")).1 = Outcome.ret exToken ∧
    (Service.TokenFromEvent exTemplatesPkg mapStore exService exMapStore
        (lit "A.0x2.Tok.Deposited")).1 =
      Outcome.fail (Errorf (lit
        "addresses do not match for Tok, from event: 0x2, from database: 0x1")) :=
  ⟨((C8_token_from_event exTemplatesPkg mapStore exService exMapStore
      (lit "A.0x1.Tok.Deposited")).1 exToken).2
      ⟨lit "0x1", lit "Tok", lit "0x1", lit "0x1", rfl, rfl, rfl, rfl, rfl, rfl⟩,
   (C8_token_from_event exTemplatesPkg mapStore exService exMapStore
      (lit "A.0x2.Tok.Deposited")).2.1 (lit "0x2") (lit "Tok") (lit "0x2") exToken (lit "0x1")
      rfl rfl rfl rfl rfl (by decide)⟩

/-! ## Theorems: authorizers -/

/-- After the key selection, `MakeAuthorizer` neither reads the key store nor decrypts. -/
theorem MakeAuthorizer_trace {SA HA Addr AK SG : Type} (pkg : KeysPkg SA HA Addr SG)
    (s : KeyManager SA HA Addr AK) (address : GoString) :
    ∀ ev ∈ (MakeAuthorizer pkg s address).2,
      ev ∈ (selectKey pkg s address).2 ∨ ev.touchesKeyStore = false := by
  intro ev hev
  simp only [MakeAuthorizer] at hev
  rcases hsel : selectKey pkg s address with ⟨res, tr⟩
  rw [hsel] at hev
  cases res with
  | error err => exact Or.inl hev
  | ok k =>
    simp only at hev
    have key : ev ∈ tr ∨ ev = KeyEvent.getAccount (pkg.HexToAddress address) ∨
        ev = KeyEvent.localSigner k ∨ ev = KeyEvent.googleSigner address k := by
      repeat' split at hev
      all_goals simp only [List.mem_append, List.mem_singleton] at hev
      all_goals tauto
    rcases key with h | h | h | h
    · exact Or.inl h
    · exact Or.inr (by rw [h]; rfl)
    · exact Or.inr (by rw [h]; rfl)
    · exact Or.inr (by rw [h]; rfl)

/-- The first component of `MakeAuthorizer` when the key selection failed. -/
theorem MakeAuthorizer_select_error {SA HA Addr AK SG : Type} (pkg : KeysPkg SA HA Addr SG)
    (s : KeyManager SA HA Addr AK) (address : GoString) (err : GoError)
    (h : (selectKey pkg s address).1 = Except.error err) :
    (MakeAuthorizer pkg s address).1 = Outcome.fail err := by
  rcases hsel : selectKey pkg s address with ⟨res, tr⟩
  rw [hsel] at h
  simp only at h
  subst h
  simp [MakeAuthorizer, hsel]

/-- C7 (amended): `MakeAuthorizer`, to which `AdminAuthorizer` and `UserAuthorizer` delegate,
selects the signing key by address.  For the admin address it uses the configured admin key and
makes no call that reads the key store or decrypts.  For every other address it uses
`Load(store.AccountKey(address))` and returns the error of the step that fails.  Whenever it
returns an authorizer, the `Address` is `HexToAddress(address)`, the `Key` is the key of the
fetched account at position `k.Index` of the selected key `k`, and the type of `k` is `local`
or `google_kms`.  For a selected key of any other type it returns an error and no authorizer:
the error of the account fetch when the fetch fails, and otherwise
`key.Type not recognised: <type>`. -/
theorem C7_make_authorizer {SA HA Addr AK SG : Type} (pkg : KeysPkg SA HA Addr SG)
    (s : KeyManager SA HA Addr AK) (address : GoString) :
    let r := MakeAuthorizer pkg s address
    let sel := selectKey pkg s address
    AdminAuthorizer pkg s = MakeAuthorizer pkg s s.cfg.AdminAccountAddress ∧
    UserAuthorizer pkg s address = r ∧
    (address = s.cfg.AdminAccountAddress →
      sel = (Except.ok s.adminAccountKey, []) ∧
      ∀ ev ∈ r.2, ev.touchesKeyStore = false) ∧
    (address ≠ s.cfg.AdminAccountAddress →
      (∀ err, s.db address = Except.error err → r.1 = Outcome.fail err) ∧
      (∀ sk err, s.db address = Except.ok sk →
        Load pkg.crypto s.crypter sk = Except.error err → r.1 = Outcome.fail err) ∧
      (∀ sk k, s.db address = Except.ok sk →
        Load pkg.crypto s.crypter sk = Except.ok k → sel.1 = Except.ok k)) ∧
    (∀ auth, r.1 = Outcome.ret auth →
      ∃ k acc, sel.1 = Except.ok k ∧
        s.fc (pkg.HexToAddress address) = Except.ok acc ∧
        auth.Address = pkg.HexToAddress address ∧
        indexKeys acc.Keys k.Index = some auth.Key ∧
        (k.Type_ = ACCOUNT_KEY_TYPE_LOCAL ∨ k.Type_ = ACCOUNT_KEY_TYPE_GOOGLE_KMS)) ∧
    (∀ k, sel.1 = Except.ok k →
      k.Type_ ≠ ACCOUNT_KEY_TYPE_LOCAL → k.Type_ ≠ ACCOUNT_KEY_TYPE_GOOGLE_KMS →
      match s.fc (pkg.HexToAddress address) with
      | Except.error err => r.1 = Outcome.fail err
      | Except.ok _ =>
        r.1 = Outcome.fail (Errorf (lit "key.Type not recognised: " ++ k.Type_))) := by
  intro r sel
  refine ⟨rfl, rfl, ?_, ?_, ?_, ?_⟩
  · intro h
    have hsel : sel = (Except.ok s.adminAccountKey, []) := by
      simp [sel, selectKey, h]
    refine ⟨hsel, ?_⟩
    intro ev hev
    rcases MakeAuthorizer_trace pkg s address ev hev with h' | h'
    · have : (selectKey pkg s address).2 = [] := by
        have := congrArg Prod.snd hsel
        simpa [sel] using this
      rw [this] at h'
      cases h'
    · exact h'
  · intro h
    refine ⟨?_, ?_, ?_⟩
    · intro err hdb
      apply MakeAuthorizer_select_error
      simp [selectKey, h, hdb]
    · intro sk err hdb hload
      apply MakeAuthorizer_select_error
      simp [selectKey, h, hdb, hload]
    · intro sk k hdb hload
      simp [sel, selectKey, h, hdb, hload]
  · intro auth hret
    rcases hsel : selectKey pkg s address with ⟨res, tr⟩
    have hr : r = MakeAuthorizer pkg s address := rfl
    simp only [MakeAuthorizer, hsel] at hr
    cases res with
    | error err =>
      simp only at hr
      rw [hr] at hret
      cases hret
    | ok k =>
      simp only at hr
      cases hfc : s.fc (pkg.HexToAddress address) with
      | error err =>
        rw [hfc] at hr
        rw [hr] at hret
        cases hret
      | ok acc =>
        rw [hfc] at hr
        simp only at hr
        refine ⟨k, acc, by simp [sel, hsel], rfl, ?_⟩
        by_cases hl : k.Type_ = ACCOUNT_KEY_TYPE_LOCAL
        · simp only [hl, if_true] at hr
          cases hs : pkg.localSigner k with
          | error err => rw [hs] at hr; rw [hr] at hret; cases hret
          | ok sig =>
            rw [hs] at hr
            simp only at hr
            cases hi : indexKeys acc.Keys k.Index with
            | none => rw [hi] at hr; rw [hr] at hret; cases hret
            | some key =>
              rw [hi] at hr
              rw [hr] at hret
              cases hret
              exact ⟨rfl, rfl, Or.inl hl⟩
        · by_cases hg : k.Type_ = ACCOUNT_KEY_TYPE_GOOGLE_KMS
          · simp only [hl, hg, if_true, if_false] at hr
            cases hs : pkg.googleSigner address k with
            | error err => rw [hs] at hr; rw [hr] at hret; cases hret
            | ok sig =>
              rw [hs] at hr
              simp only at hr
              cases hi : indexKeys acc.Keys k.Index with
              | none => rw [hi] at hr; rw [hr] at hret; cases hret
              | some key =>
                rw [hi] at hr
                rw [hr] at hret
                cases hret
                exact ⟨rfl, rfl, Or.inr hg⟩
          · simp only [hl, hg, if_false] at hr
            rw [hr] at hret
            cases hret
  · intro k hk hl hg
    rcases hsel : selectKey pkg s address with ⟨res, tr⟩
    have hk' : res = Except.ok k := by
      have : sel.1 = res := by simp [sel, hsel]
      rw [← this]; exact hk
    subst hk'
    cases hfc : s.fc (pkg.HexToAddress address) with
    | error err => simp [r, MakeAuthorizer, hsel, hfc]
    | ok acc => simp [r, MakeAuthorizer, hsel, hfc, hl, hg]

/-- Counterexample to C7 as stated: the admin key has type `aws_kms`, neither `local` nor
`google_kms`, and the account fetch fails; `MakeAuthorizer` returns the error of the fetch,
whose message does not contain `key.Type not recognised`. -/
theorem C7_counterexample :
    (selectKey exKeysPkg (exKeyManager (lit "aws_kms") false) (lit "0x1")).1 =
        Except.ok { exPrivate with Type_ := lit "aws_kms" } ∧
    lit "aws_kms" ≠ ACCOUNT_KEY_TYPE_LOCAL ∧ lit "aws_kms" ≠ ACCOUNT_KEY_TYPE_GOOGLE_KMS ∧
    (MakeAuthorizer exKeysPkg (exKeyManager (lit "aws_kms") false) (lit "0x1")).1 =
        Outcome.fail (Errorf (lit "connection refused")) ∧
    Errorf (lit "connection refused") ≠ Errorf (lit "key.Type not recognised: aws_kms") ∧
    stringsContains (Errorf (lit "connection refused")).Error (lit "key.Type not recognised")
      = false :=
  ⟨rfl, by decide, by decide, rfl, by decide, by decide⟩

/-- Witness for C7: the admin address and a user address yield authorizers with the account
key at the index of the selected key, and an admin key of type `aws_kms` is rejected with
`key.Type not recognised` once the account fetch succeeds. -/
theorem C7_make_authorizer_witness :
    (∃ k acc,
      (selectKey exKeysPkg (exKeyManager (lit "local") true) (lit "0x2")).1 = Except.ok k ∧
      (exKeyManager (lit "local") true).fc (exKeysPkg.HexToAddress (lit "0x2")) = Except.ok acc ∧
      indexKeys acc.Keys k.Index = some 11 ∧
      (k.Type_ = ACCOUNT_KEY_TYPE_LOCAL ∨ k.Type_ = ACCOUNT_KEY_TYPE_GOOGLE_KMS)) ∧
    (MakeAuthorizer exKeysPkg (exKeyManager (lit "aws_kms") true) (lit "0x1")).1 =
      Outcome.fail (Errorf (lit "key.Type not recognised: aws_kms")) :=
  ⟨by
    obtain ⟨k, acc, h1, h2, -, h4, h5⟩ :=
      (C7_make_authorizer exKeysPkg (exKeyManager (lit "local") true) (lit "0x2")).2.2.2.2.1
        { Address := lit "0x2", Key := 11, Signer := 1 } rfl
    exact ⟨k, acc, h1, h2, h4, h5⟩,
   (C7_make_authorizer exKeysPkg (exKeyManager (lit "aws_kms") true) (lit "0x1")).2.2.2.2.2
      { exPrivate with Type_ := lit "aws_kms" } rfl (by decide) (by decide)⟩

/-! ## Theorems: segments of an event type -/

/-- The result of `strings.Split` has at least one segment. -/
theorem stringsSplit_ne_nil (s : GoString) (sep : Byte) : stringsSplit s sep ≠ [] := by
  cases s with
  | nil => simp [stringsSplit]
  | cons c cs =>
    simp only [stringsSplit]
    split
    · simp
    · split <;> simp

/-- The result of `strings.Split` has one segment more than the separator occurs. -/
theorem stringsSplit_length (s : GoString) (sep : Byte) :
    (stringsSplit s sep).length = s.count sep + 1 := by
  induction s with
  | nil => simp [stringsSplit]
  | cons c cs ih =>
    simp only [stringsSplit]
    by_cases h : c = sep
    · subst h
      simp [ih]
    · have hne : sep ≠ c := fun e => h e.symm
      simp only [h, if_false, List.count_cons_of_ne hne]
      cases hs : stringsSplit cs sep with
      | nil => exact absurd hs (stringsSplit_ne_nil cs sep)
      | cons seg segs =>
        rw [hs] at ih
        simpa using ih

/-- C11 (amended): the reads of segments 1 and 2 of `strings.Split(e.Type, ".")` in
`Service.TokenFromEvent`.  The split has one segment more than the type has dots, so both
reads are in bounds if and only if the type has at least two dots.  With at least two dots no
index is out of range, and the function returns a token or an error, except that when the
second segment validates and the store lookup returns a `nil` token with a `nil` error the
read of `token.Address` dereferences `nil` and the function panics.  With no dot the read of
segment 1 is out of range and the function panics.  With exactly one dot the read of segment 1
is in bounds: if that segment does not validate, the function returns the validation error,
and otherwise the read of segment 2 is out of range and the function panics. -/
theorem C11_token_from_event_bounds {S : Type} (pkg : TemplatesPkg) (store : Store S)
    (svc : Service) (s : S) (eType : GoString) :
    let ss := stringsSplit eType 46
    let r := Service.TokenFromEvent pkg store svc s eType
    ss.length = dotCount eType + 1 ∧
    (((ss[1]?).isSome = true ∧ (ss[2]?).isSome = true) ↔ 2 ≤ dotCount eType) ∧
    (2 ≤ dotCount eType →
      ∃ ss1 ss2, ss[1]? = some ss1 ∧ ss[2]? = some ss2 ∧
        (∀ i n, r.1 ≠ Outcome.panicIndex i n) ∧
        match pkg.ValidateAddress ss1 svc.cfg.ChainId, (store.GetByName s ss2).1 with
        | Except.ok _, Except.ok none => r.1 = Outcome.panicNil
        | _, _ => (∃ tok, r.1 = Outcome.ret tok) ∨ (∃ err, r.1 = Outcome.fail err)) ∧
    (dotCount eType = 0 → ss[1]? = none ∧ r = (Outcome.panicIndex 1 1, s)) ∧
    (dotCount eType = 1 →
      ∃ ss1, ss[1]? = some ss1 ∧ ss[2]? = none ∧
        match pkg.ValidateAddress ss1 svc.cfg.ChainId with
        | Except.error err => r = (Outcome.fail err, s)
        | Except.ok _ => r = (Outcome.panicIndex 2 2, s)) := by
  intro ss r
  have hlen : (stringsSplit eType 46).length = dotCount eType + 1 :=
    stringsSplit_length eType 46
  have hr : r = Service.TokenFromEvent pkg store svc s eType := rfl
  have hss : ss = stringsSplit eType 46 := rfl
  clear_value r ss
  subst hss
  rcases hs : stringsSplit eType 46 with _ | ⟨a, _ | ⟨b, _ | ⟨c, rest⟩⟩⟩
  · exact absurd hs (stringsSplit_ne_nil eType 46)
  · rw [hs] at hlen
    simp only [List.length_singleton] at hlen
    have hd : dotCount eType = 0 := by omega
    refine ⟨by simp [hd], by simp [hd], by intro h; omega, ?_, by intro h; omega⟩
    intro _
    refine ⟨by simp, ?_⟩
    rw [hr]
    simp [Service.TokenFromEvent, hs]
  · rw [hs] at hlen
    simp only [List.length_cons, List.length_nil] at hlen
    have hd : dotCount eType = 1 := by omega
    refine ⟨by simp [hd], by simp [hd], by intro h; omega, by intro h; omega, ?_⟩
    intro _
    refine ⟨b, by simp, by simp, ?_⟩
    rw [hr]
    cases hv : pkg.ValidateAddress b svc.cfg.ChainId with
    | error err => simp [Service.TokenFromEvent, hs, hv]
    | ok eAddress => simp [Service.TokenFromEvent, hs, hv]
  · rw [hs] at hlen
    simp only [List.length_cons] at hlen
    have hd : 2 ≤ dotCount eType := by omega
    refine ⟨by simp only [List.length_cons]; omega, by simp [hd], ?_,
      by intro h; omega, by intro h; omega⟩
    intro _
    refine ⟨b, c, by simp, by simp, ?_⟩
    rw [hr]
    cases hv : pkg.ValidateAddress b svc.cfg.ChainId with
    | error err =>
      have hres : (Service.TokenFromEvent pkg store svc s eType).1 = Outcome.fail err := by
        simp [Service.TokenFromEvent, hs, hv]
      rw [hres]
      refine ⟨fun i n h => (by cases h), ?_⟩
      split
      · rename_i heq _
        cases heq
      · exact Or.inr ⟨err, rfl⟩
    | ok eAddress =>
      rcases hg : store.GetByName s c with ⟨res, s1⟩
      cases res with
      | error err =>
        have hres : (Service.TokenFromEvent pkg store svc s eType).1 = Outcome.fail err := by
          simp [Service.TokenFromEvent, Service.GetTokenByName, hs, hv, hg]
        rw [hres]
        refine ⟨fun i n h => (by cases h), ?_⟩
        simp only [hg]
        exact Or.inr ⟨err, rfl⟩
      | ok ptr =>
        cases ptr with
        | none =>
          have hres : (Service.TokenFromEvent pkg store svc s eType).1 = Outcome.panicNil := by
            simp [Service.TokenFromEvent, Service.GetTokenByName, hs, hv, hg]
          rw [hres]
          refine ⟨fun i n h => (by cases h), ?_⟩
          simp only [hg]
        | some token =>
          cases hv2 : pkg.ValidateAddress token.Address svc.cfg.ChainId with
          | error err =>
            have hres : (Service.TokenFromEvent pkg store svc s eType).1 =
                Outcome.fail err := by
              simp [Service.TokenFromEvent, Service.GetTokenByName, hs, hv, hg, hv2]
            rw [hres]
            refine ⟨fun i n h => (by cases h), ?_⟩
            simp only [hg]
            exact Or.inr ⟨err, rfl⟩
          | ok tAddress =>
            by_cases he : eAddress = tAddress
            · have hres : (Service.TokenFromEvent pkg store svc s eType).1 =
                  Outcome.ret token := by
                simp [Service.TokenFromEvent, Service.GetTokenByName, hs, hv, hg, hv2, he]
              rw [hres]
              refine ⟨fun i n h => (by cases h), ?_⟩
              simp only [hg]
              exact Or.inl ⟨token, rfl⟩
            · have hres : (Service.TokenFromEvent pkg store svc s eType).1 =
                  Outcome.fail (Errorf (lit "addresses do not match for " ++ token.Name ++
                    lit ", from event: " ++ eAddress ++ lit ", from database: " ++
                    tAddress)) := by
                simp [Service.TokenFromEvent, Service.GetTokenByName, hs, hv, hg, hv2, he]
              rw [hres]
              refine ⟨fun i n h => (by cases h), ?_⟩
              simp only [hg]
              exact Or.inr ⟨_, rfl⟩

/-- Counterexample to C11 as stated, on both of its halves.  The event type `A.notanaddress`
has one dot, fewer than two, yet `Service.TokenFromEvent` returns an error, the one of the
address validation, instead of running out of range.  The event type
`A.0ae53cb6e3f42a79.FlowToken.TokensDeposited` has three dots, yet over a store whose lookup
returns a `nil` token with a `nil` error the function returns neither a token nor an error: it
panics on the `nil` dereference. -/
theorem C11_counterexample :
    dotCount (lit "A.notanaddress") = 1 ∧
    stringsSplit (lit "A.notanaddress") 46 = [lit "A", lit "notanaddress"] ∧
    (Service.TokenFromEvent exHexPkg mapStore exService exFlowStore (lit "A.notanaddress")).1 =
      Outcome.fail (Errorf (lit "not a valid address")) ∧
    dotCount (lit "A.0ae53cb6e3f42a79.FlowToken.TokensDeposited") = 3 ∧
    (Service.TokenFromEvent exHexPkg exNilStore exService ()
        (lit "A.0ae53cb6e3f42a79.FlowToken.TokensDeposited")).1 = Outcome.panicNil :=
  ⟨by decide, by decide, rfl, by decide, rfl⟩

/-- Witness for C11: the empty type panics at segment 1; the type `A.0ae53cb6e3f42a79`, whose
second segment validates, panics at segment 2; a type with three dots over a store that holds
the token returns a token or an error, and over a store whose lookup returns `nil` and no
error it panics on the `nil` dereference. -/
theorem C11_token_from_event_bounds_witness :
    Service.TokenFromEvent exHexPkg mapStore exService exFlowStore (lit "") =
      (Outcome.panicIndex 1 1, exFlowStore) ∧
    Service.TokenFromEvent exHexPkg mapStore exService exFlowStore (lit "A.0ae53cb6e3f42a79") =
      (Outcome.panicIndex 2 2, exFlowStore) ∧
    ((∃ tok, (Service.TokenFromEvent exHexPkg mapStore exService exFlowStore
        (lit "A.0ae53cb6e3f42a79.FlowToken.TokensDeposited")).1 = Outcome.ret tok) ∨
      (∃ err, (Service.TokenFromEvent exHexPkg mapStore exService exFlowStore
        (lit "A.0ae53cb6e3f42a79.FlowToken.TokensDeposited")).1 = Outcome.fail err)) ∧
    (Service.TokenFromEvent exHexPkg exNilStore exService ()
        (lit "A.0ae53cb6e3f42a79.FlowToken.TokensDeposited")).1 = Outcome.panicNil :=
  ⟨((C11_token_from_event_bounds exHexPkg mapStore exService exFlowStore (lit "")).2.2.2.1
      (by decide)).2,
   by
    obtain ⟨ss1, h1, -, h3⟩ :=
      (C11_token_from_event_bounds exHexPkg mapStore exService exFlowStore
        (lit "A.0ae53cb6e3f42a79")).2.2.2.2 (by decide)
    have hss1 : ss1 = lit "0ae53cb6e3f42a79" :=
      (Option.some.inj ((rfl : (stringsSplit (lit "A.0ae53cb6e3f42a79") 46)[1]? =
        some (lit "0ae53cb6e3f42a79")).symm.trans h1)).symm
    subst hss1
    exact h3,
   by
    obtain ⟨ss1, ss2, h1, h2, -, h4⟩ :=
      (C11_token_from_event_bounds exHexPkg mapStore exService exFlowStore
        (lit "A.0ae53cb6e3f42a79.FlowToken.TokensDeposited")).2.2.1 (by decide)
    have hss1 : ss1 = lit "0ae53cb6e3f42a79" :=
      (Option.some.inj ((rfl : (stringsSplit
        (lit "A.0ae53cb6e3f42a79.FlowToken.TokensDeposited") 46)[1]? =
        some (lit "0ae53cb6e3f42a79")).symm.trans h1)).symm
    have hss2 : ss2 = lit "FlowToken" :=
      (Option.some.inj ((rfl : (stringsSplit
        (lit "A.0ae53cb6e3f42a79.FlowToken.TokensDeposited") 46)[2]? =
        some (lit "FlowToken")).symm.trans h2)).symm
    subst hss1 hss2
    exact h4,
   by
    obtain ⟨ss1, ss2, h1, h2, -, h4⟩ :=
      (C11_token_from_event_bounds exHexPkg exNilStore exService ()
        (lit "A.0ae53cb6e3f42a79.FlowToken.TokensDeposited")).2.2.1 (by decide)
    have hss1 : ss1 = lit "0ae53cb6e3f42a79" :=
      (Option.some.inj ((rfl : (stringsSplit
        (lit "A.0ae53cb6e3f42a79.FlowToken.TokensDeposited") 46)[1]? =
        some (lit "0ae53cb6e3f42a79")).symm.trans h1)).symm
    subst hss1
    exact h4⟩

end FlowWallet
